import Mathlib

/-!
Shallow embedding of the gbcemu emulator core (cycle-driven Game Boy
emulator) used to check the natural-language specification against the
source. Machine bytes and words are modelled as `Nat` with explicit
masking/modular arithmetic exactly where the Rust source performs u8/u16
arithmetic. Fallible paths of the source (Rust `panic!`/`unreachable!`)
are modelled with `Option`. The cartridge is modelled with the `NoMbc`
memory-bank controller (src/mbc/no_mbc.rs): the identity ROM mapping and
a directly mapped external RAM bank, which is the instantiation the
verified claims exercise.
-/

namespace Gbcemu

/-- Pointwise update of a function-backed byte array. -/
def upd (f : Nat → Nat) (i v : Nat) : Nat → Nat :=
  fun j => if j = i then v else f j

/-- PPU mode (src/emulator.rs `Mode`). -/
inductive Mode where
  | HBlank
  | VBlank
  | OamScan
  | Draw
deriving DecidableEq, Repr

/-- Mode byte value exposed through STAT (src/emulator.rs `Mode::byte_value`). -/
def Mode.byteValue : Mode → Nat
  | .HBlank => 0
  | .VBlank => 1
  | .OamScan => 2
  | .Draw => 3

/-- Interrupt sources (src/emulator.rs `Interrupt`). -/
inductive Interrupt where
  | VBlank
  | LcdStat
  | Timer
  | Serial
  | Joypad
deriving DecidableEq, Repr

/-- Flag bit of an interrupt in IF/IE (src/emulator.rs `Interrupt::flag_bit`). -/
def Interrupt.flagBit : Interrupt → Nat
  | .VBlank => 0x01
  | .LcdStat => 0x02
  | .Timer => 0x04
  | .Serial => 0x08
  | .Joypad => 0x10

/-- Fixed handler address of an interrupt (src/emulator.rs `Interrupt::handler_address`). -/
def Interrupt.handlerAddress : Interrupt → Nat
  | .VBlank => 0x40
  | .LcdStat => 0x48
  | .Timer => 0x50
  | .Serial => 0x58
  | .Joypad => 0x60

/-- Highest priority interrupt in a bit string from IE or IF
(src/emulator.rs `Interrupt::for_bits`); the source's `unreachable!()`
arm for an empty bit string is modelled as `none`. -/
def Interrupt.forBits (interruptBits : Nat) : Option Interrupt :=
  if interruptBits &&& 0x01 ≠ 0 then some .VBlank
  else if interruptBits &&& 0x02 ≠ 0 then some .LcdStat
  else if interruptBits &&& 0x04 ≠ 0 then some .Timer
  else if interruptBits &&& 0x08 ≠ 0 then some .Serial
  else if interruptBits &&& 0x10 ≠ 0 then some .Joypad
  else none

/-- State machine for the delayed effect of the `ei` instruction
(src/emulator.rs `PendingEnableInterrupt`). -/
inductive PendingEnableInterrupt where
  | none
  | afterNextInstruction
  | afterCurrentInstruction (rep : Bool)
deriving DecidableEq, Repr

/-- An OAM DMA transfer in progress (src/emulator.rs `OamDmaTransfer`). -/
structure OamDmaTransfer where
  sourceAddress : Nat
  ticksRemaining : Nat
deriving DecidableEq, Repr

/-- An HBlank VRAM DMA transfer in progress (src/emulator.rs `VramDmaTransfer`). -/
structure VramDmaTransfer where
  source : Nat
  dest : Nat
  remainingTicksInCurrentHblank : Option Nat
  numBlocksLeft : Nat
  totalNumBlocks : Nat
deriving DecidableEq, Repr

/-- The state owned by the emulator (src/emulator.rs `Emulator` together
with the CPU register file of src/cpu/registers.rs). Byte arrays are
functions from physical index to byte; `ioRegs` is indexed by the low
byte of the register address as in src/io_registers.rs `offset`.
Host-facing handles (options, input adapter, output buffer, audio sink,
save file) and the APU/audio-queue state are not part of the model: no
settled claim observes them. -/
structure EmuState where
  -- CPU register file (src/cpu/registers.rs)
  pc : Nat
  sp : Nat
  a : Nat
  b : Nat
  c : Nat
  d : Nat
  e : Nat
  h : Nat
  l : Nat
  zeroFlag : Bool
  carryFlag : Bool
  nFlag : Bool
  hFlag : Bool
  interruptsEnabled : Bool
  -- Memory regions
  rom : Nat → Nat
  cartridgeRam : Nat → Nat
  vram : Nat → Nat
  workRam : Nat → Nat
  oam : Nat → Nat
  hram : Nat → Nat
  ioRegs : Nat → Nat
  ie : Nat
  cgbBackgroundPalettes : Nat → Nat
  cgbObjectPalettes : Nat → Nat
  -- Machine / mode state
  machineIsCgb : Bool
  inCgbMode : Bool
  isBooting : Bool
  isDoubleSpeed : Bool
  mode : Mode
  scanline : Nat
  tick : Nat
  -- CPU scheduling state
  ticksToNextInstruction : Nat
  pendingEnableInterrupts : PendingEnableInterrupt
  isCpuHalted : Bool
  isCpuStoppedForVramDma : Bool
  -- DMA / speed switch state
  currentOamDmaTransfer : Option OamDmaTransfer
  currentHblankVramDmaTransfer : Option VramDmaTransfer
  currentGeneralPurposeVramDmaTransfer : Option Nat
  currentSpeedSwitch : Option Nat
  -- Timer state
  fullDividerRegister : Nat
  tacMask : Nat
  isTimerEnabled : Bool
  -- Input state
  pressedButtons : Nat

/-- Value returned when reading VRAM or CGB palettes fails
(src/emulator.rs `VRAM_READ_FAILED_VALUE`). -/
def VRAM_READ_FAILED_VALUE : Nat := 0xFF

/-- Read a raw byte from the IO register file
(src/io_registers.rs `read_register_raw`; offset is the low address byte). -/
def readRegisterRaw (s : EmuState) (address : Nat) : Nat :=
  s.ioRegs (address &&& 0xFF)

/-- Write a raw byte to the IO register file
(src/io_registers.rs `write_register_raw`). -/
def writeRegisterRaw (s : EmuState) (address value : Nat) : EmuState :=
  { s with ioRegs := upd s.ioRegs (address &&& 0xFF) value }

/-- Raw LCDC register byte (address 0xFF40). -/
def lcdcRaw (s : EmuState) : Nat := readRegisterRaw s 0xFF40

/-- Whether the LCD is enabled, LCDC bit 7 (src/io_registers.rs `is_lcdc_lcd_enabled`). -/
def isLcdcLcdEnabled (s : EmuState) : Bool := (lcdcRaw s).testBit 7

/-- Whether objects are 8x16, LCDC bit 2 (src/io_registers.rs `is_lcdc_obj_double_size`). -/
def isLcdcObjDoubleSize (s : EmuState) : Bool := (lcdcRaw s).testBit 2

/-- Raw STAT register byte (address 0xFF41). -/
def statRaw (s : EmuState) : Nat := readRegisterRaw s 0xFF41

/-- STAT bit 6, LYC interrupt source enable (src/io_registers.rs `is_stat_lyc_interrupt_enabled`). -/
def isStatLycInterruptEnabled (s : EmuState) : Bool := (statRaw s).testBit 6

/-- Whether VRAM and the CGB palette data can currently be accessed
(src/emulator.rs `can_access_vram`). -/
def canAccessVram (s : EmuState) : Bool :=
  decide (s.mode ≠ Mode.Draw) || !isLcdcLcdEnabled s

/-- Convert a button set plus row selection into the joypad register format
(src/emulator.rs `buttons_to_joypad_reg`). The u8 complements of the
source (`!0x20` etc.) are written as their byte values. -/
def buttonsToJoypadReg (buttons : Nat) (selectSpecial selectDirectional : Bool) : Nat :=
  let result := 0xFF
  let result := if selectSpecial then result &&& 0xDF else result
  let result := if selectDirectional then result &&& 0xEF else result
  let result :=
    if selectSpecial then
      let result := if buttons &&& 0x08 ≠ 0 then result &&& 0xF7 else result
      let result := if buttons &&& 0x04 ≠ 0 then result &&& 0xFB else result
      let result := if buttons &&& 0x02 ≠ 0 then result &&& 0xFD else result
      if buttons &&& 0x01 ≠ 0 then result &&& 0xFE else result
    else result
  if selectDirectional then
    let result := if buttons &&& 0x80 ≠ 0 then result &&& 0xF7 else result
    let result := if buttons &&& 0x40 ≠ 0 then result &&& 0xFB else result
    let result := if buttons &&& 0x20 ≠ 0 then result &&& 0xFD else result
    if buttons &&& 0x10 ≠ 0 then result &&& 0xFE else result
  else result

/-- Joypad register read handler (src/io_registers.rs `read_joypad_impl`). -/
def readJoypadImpl (s : EmuState) : Nat :=
  let raw := readRegisterRaw s 0xFF00
  buttonsToJoypadReg s.pressedButtons (!raw.testBit 5) (!raw.testBit 4)

/-- DIV read handler: upper byte of the internal divider
(src/io_registers.rs `read_div_impl`). -/
def readDivImpl (s : EmuState) : Nat := s.fullDividerRegister >>> 8

/-- DIV write handler: resets the whole divider
(src/io_registers.rs `write_div_impl`, src/emulator.rs `reset_divider_register`). -/
def writeDivImpl (s : EmuState) : EmuState := { s with fullDividerRegister := 0 }

/-- Map the TAC-selected divider mask back to TAC bits
(src/emulator.rs `tac_bits`); the `unreachable!()` arm never fires since
`tac_mask` is only ever one of the four masks. -/
def tacBits (s : EmuState) : Nat :=
  if s.tacMask = 0x0200 then 0b00
  else if s.tacMask = 0x0008 then 0b01
  else if s.tacMask = 0x0020 then 0b10
  else if s.tacMask = 0x0080 then 0b11
  else 0b00

/-- Map TAC bits to the divider mask (src/emulator.rs `set_tac_bits`). -/
def setTacBits (s : EmuState) (bits : Nat) : EmuState :=
  let mask :=
    if bits &&& 0x3 = 0b00 then 0x0200
    else if bits &&& 0x3 = 0b01 then 0x0008
    else if bits &&& 0x3 = 0b10 then 0x0020
    else 0x0080
  { s with tacMask := mask }

/-- TAC read handler (src/io_registers.rs `read_tac_impl`). -/
def readTacImpl (s : EmuState) : Nat :=
  tacBits s ||| ((if s.isTimerEnabled then 1 else 0) <<< 2)

/-- TAC write handler (src/io_registers.rs `write_tac_impl`). -/
def writeTacImpl (s : EmuState) (value : Nat) : EmuState :=
  setTacBits { s with isTimerEnabled := value.testBit 2 } (value &&& 0x03)

/-- IF write handler: keep the low 5 bits, force the top 3 set
(src/io_registers.rs `write_if_impl`). -/
def writeIfImpl (s : EmuState) (value : Nat) : EmuState :=
  writeRegisterRaw s 0xFF0F (0xE0 ||| (0x1F &&& value))

/-- Set an interrupt's IF bit (src/emulator.rs `request_interrupt`;
`if_reg` reads raw and `write_if_reg` dispatches to `write_if_impl`). -/
def requestInterrupt (s : EmuState) (i : Interrupt) : EmuState :=
  writeIfImpl s (readRegisterRaw s 0xFF0F ||| i.flagBit)

/-- STAT read handler (src/io_registers.rs `read_lcd_stat_impl`). -/
def readLcdStatImpl (s : EmuState) : Nat :=
  let raw := statRaw s
  let unusedBits := 0x80
  let interruptBits := raw ||| 0x78
  let lycBit := if s.scanline = readRegisterRaw s 0xFF45 then 0x04 else 0x00
  let modeBits := s.mode.byteValue
  unusedBits ||| interruptBits ||| lycBit ||| modeBits

/-- LYC write handler (src/io_registers.rs `write_lyc_impl`). -/
def writeLycImpl (s : EmuState) (value : Nat) : EmuState :=
  let s := writeRegisterRaw s 0xFF45 value
  if value = s.scanline ∧ isStatLycInterruptEnabled s then
    requestInterrupt s Interrupt.LcdStat
  else s

/-- LY read handler: the current scanline (src/io_registers.rs `read_ly_impl`). -/
def readLyImpl (s : EmuState) : Nat := s.scanline

/-- KEY0 write handler (src/io_registers.rs `write_key0_impl`). -/
def writeKey0Impl (s : EmuState) (value : Nat) : EmuState :=
  if s.isBooting ∧ s.machineIsCgb then
    let s := { s with inCgbMode := !value.testBit 2 }
    writeRegisterRaw s 0xFF4C (0xFB ||| (value &&& 0x04))
  else s

/-- KEY1 read handler (src/io_registers.rs `read_key1_impl`). -/
def readKey1Impl (s : EmuState) : Nat :=
  let raw := readRegisterRaw s 0xFF4D
  if s.isDoubleSpeed then raw ||| 0x80 else raw

/-- KEY1 write handler: only the low bit is stored
(src/io_registers.rs `write_key1_impl`). -/
def writeKey1Impl (s : EmuState) (value : Nat) : EmuState :=
  writeRegisterRaw s 0xFF4D (value &&& 0x01)

/-- VBK write handler: keep the low bit, force the top 7 set
(src/io_registers.rs `write_vbk_impl`). -/
def writeVbkImpl (s : EmuState) (value : Nat) : EmuState :=
  writeRegisterRaw s 0xFF4F (0xFE ||| (0x01 &&& value))

/-- Boot ROM bank register write handler (src/io_registers.rs `write_bank_impl`). -/
def writeBankImpl (s : EmuState) : EmuState := { s with isBooting := false }

/-- OPRI write handler: writes are ignored after booting
(src/io_registers.rs `write_opri_impl`). -/
def writeOpriImpl (s : EmuState) (value : Nat) : EmuState :=
  if s.isBooting then writeRegisterRaw s 0xFF6C (0x01 &&& value) else s

/-- WBK write handler: keep the low 3 bits treating 0 as 1, force the top
5 bits set (src/io_registers.rs `write_wbk_impl`). -/
def writeWbkImpl (s : EmuState) (value : Nat) : EmuState :=
  writeRegisterRaw s 0xFF70 (0xF8 ||| max (0x07 &&& value) 1)

/-- Byte address inside the CGB palette arrays: low 6 bits of BCPS/OCPS
(src/io_registers.rs `cgb_pallette_address`). -/
def cgbPalletteAddress (reg : Nat) : Nat := reg &&& 0x3F

/-- Auto-increment flag: bit 7 of BCPS/OCPS
(src/io_registers.rs `cgb_pallete_auto_increment`). -/
def cgbPalleteAutoIncrement (reg : Nat) : Bool := reg.testBit 7

/-- BCPD read handler (src/io_registers.rs `read_bcpd_impl`, translated
literally: the source returns the failure value when `can_access_vram()`
is true). -/
def readBcpdImpl (s : EmuState) : Nat :=
  if canAccessVram s then VRAM_READ_FAILED_VALUE
  else s.cgbBackgroundPalettes (cgbPalletteAddress (readRegisterRaw s 0xFF68))

/-- BCPD write handler (src/io_registers.rs `write_bcpd_impl`). -/
def writeBcpdImpl (s : EmuState) (value : Nat) : EmuState :=
  let bcps := readRegisterRaw s 0xFF68
  let address := cgbPalletteAddress bcps
  let s :=
    if canAccessVram s then
      { s with cgbBackgroundPalettes := upd s.cgbBackgroundPalettes address value }
    else s
  if cgbPalleteAutoIncrement bcps then
    writeRegisterRaw s 0xFF68 ((bcps &&& 0x80) ||| (address + 1))
  else s

/-- OCPD read handler (src/io_registers.rs `read_ocpd_impl`, translated
literally with the same guard polarity as the source). -/
def readOcpdImpl (s : EmuState) : Nat :=
  if canAccessVram s then VRAM_READ_FAILED_VALUE
  else s.cgbObjectPalettes (cgbPalletteAddress (readRegisterRaw s 0xFF6A))

/-- OCPD write handler (src/io_registers.rs `write_ocpd_impl`). -/
def writeOcpdImpl (s : EmuState) (value : Nat) : EmuState :=
  let ocps := readRegisterRaw s 0xFF6A
  let address := cgbPalletteAddress ocps
  let s :=
    if canAccessVram s then
      { s with cgbObjectPalettes := upd s.cgbObjectPalettes address value }
    else s
  if cgbPalleteAutoIncrement ocps then
    writeRegisterRaw s 0xFF6A ((ocps &&& 0x80) ||| (address + 1))
  else s

/-- Read an IO register through the per-address read handler table
(src/io_registers.rs `read_io_register` together with the `READ_HANDLERS`
table built by `define_registers!`). Only the listed offsets have
non-raw read handlers; every other offset reads the raw byte. The
write-only registers HDMA1-HDMA4 panic on read
(`read_from_write_only_register`), modelled as `none`. -/
def readIoRegister (s : EmuState) (address : Nat) : Option Nat :=
  match address &&& 0xFF with
  | 0x00 => some (readJoypadImpl s)
  | 0x04 => some (readDivImpl s)
  | 0x07 => some (readTacImpl s)
  | 0x41 => some (readLcdStatImpl s)
  | 0x44 => some (readLyImpl s)
  | 0x4D => some (readKey1Impl s)
  | 0x51 => none
  | 0x52 => none
  | 0x53 => none
  | 0x54 => none
  | 0x69 => some (readBcpdImpl s)
  | 0x6B => some (readOcpdImpl s)
  | off => some (s.ioRegs off)

/-- VRAM bank for the current VBK selection (src/emulator.rs
`physical_vram_bank_address`; `vbk` reads the raw register). -/
def physicalVramBankAddress (s : EmuState) (addr : Nat) : Nat :=
  let bankNum := if s.inCgbMode then readRegisterRaw s 0xFF4F &&& 0x01 else 0
  (addr - 0x8000) + bankNum * 0x2000

/-- Work RAM bank for the 0xD000 region (src/emulator.rs
`second_wram_bank_num`; `wbk` reads the raw register). -/
def secondWramBankNum (s : EmuState) : Nat :=
  if s.inCgbMode then max (readRegisterRaw s 0xFF70 &&& 0x7) 1 else 1

/-- Read a byte from a virtual address (src/emulator.rs `read_address`),
with the `NoMbc` cartridge mapping (identity ROM map, directly mapped
external RAM). The Echo RAM `panic!` and the final `unreachable!()` are
modelled as `none`. -/
def readAddress (s : EmuState) (addr : Nat) : Option Nat :=
  if addr < 0x8000 then some (s.rom addr)
  else if addr < 0xA000 then some (s.vram (physicalVramBankAddress s addr))
  else if addr < 0xC000 then some (s.cartridgeRam (addr - 0xA000))
  else if addr < 0xD000 then some (s.workRam (addr - 0xC000))
  else if addr < 0xE000 then
    some (s.workRam ((addr - 0xD000) + 0x1000 * secondWramBankNum s))
  else if addr < 0xFE00 then none
  else if addr < 0xFEA0 then some (s.oam (addr - 0xFE00))
  else if addr < 0xFF00 then some 0xFF
  else if addr < 0xFF80 then readIoRegister s addr
  else if addr < 0xFFFF then some (s.hram (addr - 0xFF80))
  else if addr = 0xFFFF then some s.ie
  else none

/-- Write a byte to a virtual address outside the IO register range
(src/emulator.rs `write_address`, all branches except the IO register
dispatch, with the `NoMbc` cartridge mapping: writes to physical ROM are
ignored, external RAM is directly mapped). Writes into the IO range and
the Echo RAM `panic!` return `none`; `writeAddress` below completes the
dispatch with the IO register handlers. The split mirrors the fact that
the VRAM DMA copy loops of the source can never write into the IO range
(their destinations are at most 0xA7EF), so the source's recursion
through `write_address` bottoms out in these branches. -/
def writeAddressCore (s : EmuState) (addr value : Nat) : Option EmuState :=
  if addr < 0x8000 then some s
  else if addr < 0xA000 then
    some { s with vram := upd s.vram (physicalVramBankAddress s addr) value }
  else if addr < 0xC000 then
    some { s with cartridgeRam := upd s.cartridgeRam (addr - 0xA000) value }
  else if addr < 0xD000 then
    some { s with workRam := upd s.workRam (addr - 0xC000) value }
  else if addr < 0xE000 then
    some { s with workRam := upd s.workRam ((addr - 0xD000) + 0x1000 * secondWramBankNum s) value }
  else if addr < 0xFE00 then none
  else if addr < 0xFEA0 then some { s with oam := upd s.oam (addr - 0xFE00) value }
  else if addr < 0xFF00 then some s
  else if addr < 0xFF80 then none
  else if addr < 0xFFFF then some { s with hram := upd s.hram (addr - 0xFF80) value }
  else if addr = 0xFFFF then some { s with ie := value }
  else none

/-- Copy loop of a general purpose VRAM DMA transfer: `count` bytes from
`src + i` to `dst + i` through the address map (the byte loop of
src/emulator.rs `start_general_purpose_vram_dma_transfer`; `wrapping_add`
on u16 is the explicit mod). -/
def vramDmaCopy (src dst : Nat) : Nat → Nat → EmuState → Option EmuState
  | _, 0, s => some s
  | i, count + 1, s => do
    let byte ← readAddress s ((src + i) % 65536)
    let s ← writeAddressCore s ((dst + i) % 65536) byte
    vramDmaCopy src dst (i + 1) count s

/-- Begin a general purpose VRAM DMA transfer: freeze the CPU and perform
the whole copy at once (src/emulator.rs `start_general_purpose_vram_dma_transfer`). -/
def startGeneralPurposeVramDmaTransfer (s : EmuState) (sourceAddress destAddress numBlocks : Nat) :
    Option EmuState :=
  let numTicks := numBlocks * 32
  let s := { s with
    currentGeneralPurposeVramDmaTransfer := some numTicks,
    isCpuStoppedForVramDma := true }
  vramDmaCopy sourceAddress destAddress 0 (numBlocks * 16) s

/-- Terminate an HBlank VRAM DMA transfer, setting the top bit of HDMA5
while keeping the rest of the register byte (src/emulator.rs
`terminate_hblank_vram_dma_transfer`; `hdma5` reads the raw register). -/
def terminateHblankVramDmaTransfer (s : EmuState) : EmuState :=
  let s := { s with currentHblankVramDmaTransfer := none }
  writeRegisterRaw s 0xFF55 (readRegisterRaw s 0xFF55 ||| 0x80)

/-- Begin an HBlank VRAM DMA transfer (src/emulator.rs `start_hblank_vram_dma_transfer`). -/
def startHblankVramDmaTransfer (s : EmuState) (source dest numBlocks : Nat) : EmuState :=
  { s with currentHblankVramDmaTransfer := some {
      source := source,
      dest := dest,
      remainingTicksInCurrentHblank := none,
      numBlocksLeft := numBlocks,
      totalNumBlocks := numBlocks } }

/-- HDMA5 write handler (src/io_registers.rs `write_hdma5_impl`). -/
def writeHdma5Impl (s : EmuState) (value : Nat) : Option EmuState :=
  let s := writeRegisterRaw s 0xFF55 value
  let isHighBitSet := value.testBit 7
  let numBlocks := (value &&& 0x7F) + 1
  if !isHighBitSet && s.currentHblankVramDmaTransfer.isSome then
    some (terminateHblankVramDmaTransfer s)
  else
    let source := ((readRegisterRaw s 0xFF51 <<< 8) ||| readRegisterRaw s 0xFF52) &&& 0xFFF0
    let dest := (((readRegisterRaw s 0xFF53 <<< 8) ||| readRegisterRaw s 0xFF54) &&& 0x1FF0) ||| 0x8000
    if isHighBitSet then some (startHblankVramDmaTransfer s source dest numBlocks)
    else startGeneralPurposeVramDmaTransfer s source dest numBlocks

/-- DMA write handler: store the byte and begin an OAM DMA transfer
(src/io_registers.rs `write_dma_impl`, src/emulator.rs
`start_oam_dma_transfer`; starting while a transfer is in progress
panics, modelled as `none`). -/
def writeDmaImpl (s : EmuState) (value : Nat) : Option EmuState :=
  let s := writeRegisterRaw s 0xFF46 value
  match s.currentOamDmaTransfer with
  | some _ => none
  | none => some { s with currentOamDmaTransfer := some {
      sourceAddress := value <<< 8,
      ticksRemaining := 640 } }

/-- Write an IO register through the per-address write handler table
(src/io_registers.rs `write_io_register` together with the
`WRITE_HANDLERS` table). Only the listed offsets have non-raw write
handlers; every other offset stores the raw byte. The NR11-NR51 audio
register writes of the source store the raw byte and additionally
forward the value into APU channel state, which this model omits (no
settled claim observes the APU), keeping the raw store. Writing LY
panics (`write_to_read_only_register`), modelled as `none`. -/
def writeIoRegister (s : EmuState) (address value : Nat) : Option EmuState :=
  match address &&& 0xFF with
  | 0x04 => some (writeDivImpl s)
  | 0x07 => some (writeTacImpl s value)
  | 0x0F => some (writeIfImpl s value)
  | 0x44 => none
  | 0x45 => some (writeLycImpl s value)
  | 0x46 => writeDmaImpl s value
  | 0x4C => some (writeKey0Impl s value)
  | 0x4D => some (writeKey1Impl s value)
  | 0x4F => some (writeVbkImpl s value)
  | 0x50 => some (writeBankImpl s)
  | 0x55 => writeHdma5Impl s value
  | 0x69 => some (writeBcpdImpl s value)
  | 0x6B => some (writeOcpdImpl s value)
  | 0x6C => some (writeOpriImpl s value)
  | 0x70 => some (writeWbkImpl s value)
  | off => some { s with ioRegs := upd s.ioRegs off value }

/-- Write a byte to a virtual address (src/emulator.rs `write_address`):
the IO register range dispatches to the write handlers, every other
range is `writeAddressCore`. -/
def writeAddress (s : EmuState) (addr value : Nat) : Option EmuState :=
  if 0xFF00 ≤ addr ∧ addr < 0xFF80 then writeIoRegister s addr value
  else writeAddressCore s addr value

/-- Schedule the number of ticks until the next instruction
(src/emulator.rs `schedule_next_instruction`). -/
def scheduleNextInstruction (s : EmuState) (ticks : Nat) : EmuState :=
  { s with ticksToNextInstruction := ticks }

/-- Push a 16-bit value in little endian order, decrementing SP by 2
(src/cpu.rs `push_u16_to_stack`; u16 wrapping arithmetic is explicit). -/
def pushU16ToStack (s : EmuState) (value : Nat) : Option EmuState := do
  let sp := s.sp
  let low := value &&& 0xFF
  let high := (value >>> 8) &&& 0xFF
  let newSp := (sp + 65536 - 2) % 65536
  let s ← writeAddress s ((newSp + 1) % 65536) high
  let s ← writeAddress s newSp low
  some { s with sp := newSp }

/-- Enter an interrupt handler like a call instruction
(src/cpu.rs `call_interrupt_handler`). -/
def callInterruptHandler (i : Interrupt) (s : EmuState) : Option EmuState := do
  let s ← pushU16ToStack s s.pc
  some { s with pc := i.handlerAddress }

/-- Dispatch an interrupt: consume 20 ticks, clear the IF bit and IME,
and jump to the handler (src/emulator.rs `handle_interrupt`; the u8
complement `!flag_bit` is the xor with 0xFF). -/
def handleInterrupt (i : Interrupt) (s : EmuState) : Option EmuState :=
  let s := scheduleNextInstruction s 20
  let s := writeIfImpl s (readRegisterRaw s 0xFF0F &&& (0xFF ^^^ i.flagBit))
  let s := { s with interruptsEnabled := false }
  callInterruptHandler i s

/-- Lower 5 bits of IE & IF (src/emulator.rs `interrupt_bits`). -/
def interruptBits (s : EmuState) : Nat :=
  s.ie &&& readRegisterRaw s 0xFF0F &&& 0x1F

/-- Resume a halted CPU (src/emulator.rs `resume_halted_cpu`). -/
def resumeHaltedCpu (s : EmuState) : EmuState :=
  { s with isCpuHalted := false, currentSpeedSwitch := none }

/-- Read the opcode byte at PC and advance PC (src/cpu.rs `read_opcode`;
u16 increment written mod 65536). -/
def readOpcode (s : EmuState) : Option (EmuState × Nat) := do
  let pc := s.pc
  let byte ← readAddress s pc
  some ({ s with pc := (pc + 1) % 65536 }, byte)

/-- The `nop` instruction (src/cpu.rs `nop`). -/
def nop (s : EmuState) : EmuState := scheduleNextInstruction s 4

/-- The `daa` instruction translated literally from src/cpu.rs `daa`:
the handler computes the adjusted accumulator into `result` and derives
the zero flag from it, but never stores `result` back into A. -/
def daa (s : EmuState) : EmuState :=
  let acc := s.a
  let subtractionFlag := s.nFlag
  let carryFlag := s.carryFlag
  let halfCarryFlag := s.hFlag
  let adjustment : Nat := 0x0
  let carried := false
  let adjustment :=
    if halfCarryFlag || (!subtractionFlag && decide ((acc &&& 0x0F) > 0x09)) then
      adjustment ||| 0x06
    else adjustment
  let (adjustment, carried) :=
    if carryFlag || (!subtractionFlag && decide (acc > 0x99)) then
      (adjustment ||| 0x60, true)
    else (adjustment, carried)
  let result :=
    if subtractionFlag then (acc + 256 - adjustment % 256) % 256
    else (acc + adjustment) % 256
  { s with
    zeroFlag := result = 0,
    hFlag := false,
    carryFlag := carried,
    ticksToNextInstruction := 4 }

/-- The `halt` instruction translated literally from src/cpu.rs `halt`:
the `halt_cpu()` call in the conditional body is commented out in the
source, so the handler only schedules the next instruction. -/
def haltInstr (s : EmuState) : EmuState :=
  scheduleNextInstruction s 4

/-- The `di` instruction (src/cpu.rs `di`). -/
def di (s : EmuState) : EmuState :=
  scheduleNextInstruction { s with interruptsEnabled := false } 4

/-- Queue a pending interrupt enable for the `ei` instruction
(src/emulator.rs `add_pending_enable_interrupts`). -/
def addPendingEnableInterrupts (s : EmuState) : EmuState :=
  match s.pendingEnableInterrupts with
  | .none => { s with pendingEnableInterrupts := .afterNextInstruction }
  | .afterCurrentInstruction _ =>
    { s with pendingEnableInterrupts := .afterCurrentInstruction true }
  | .afterNextInstruction => s

/-- The `ei` instruction (src/cpu.rs `ei`). -/
def ei (s : EmuState) : EmuState :=
  scheduleNextInstruction (addPendingEnableInterrupts s) 4

/-- Fetch and dispatch one instruction (src/cpu.rs `execute_instruction`
with the `DISPATCH_TABLE`). Only the opcodes exercised by the verified
claims are embedded; the remaining table entries are modelled as `none`
so that no theorem can depend on unmodelled behaviour. -/
def executeInstruction (s : EmuState) : Option EmuState := do
  let (s, opcode) ← readOpcode s
  match opcode with
  | 0x00 => some (nop s)
  | 0x27 => some (daa s)
  | 0x76 => some (haltInstr s)
  | 0xF3 => some (di s)
  | 0xFB => some (ei s)
  | _ => none

/-- Advance the divider and timer for one tick (src/emulator.rs
`increment_timers`). `tima`/`tma` read the raw registers and `write_tima`
stores raw; the TIMA `overflowing_add` is u8 arithmetic. The DIV-APU
falling edge advances only APU state, which this model omits. -/
def incrementTimers (s : EmuState) : EmuState :=
  let oldDivider := s.fullDividerRegister
  let newDivider :=
    if s.isDoubleSpeed then (oldDivider + 2) % 65536 else (oldDivider + 1) % 65536
  let s := { s with fullDividerRegister := newDivider }
  let fallingEdges := oldDivider &&& (65535 ^^^ newDivider)
  if fallingEdges &&& s.tacMask ≠ 0 ∧ s.isTimerEnabled then
    let tima := readRegisterRaw s 0xFF05
    if tima + 1 ≥ 256 then
      requestInterrupt (writeRegisterRaw s 0xFF05 (readRegisterRaw s 0xFF06)) Interrupt.Timer
    else
      writeRegisterRaw s 0xFF05 (tima + 1)
  else s

/-- Advance the pending interrupt-enable state machine at the end of a
tick (src/emulator.rs `advance_pending_enable_interrupts_state`). -/
def advancePendingEnableInterruptsState (s : EmuState) : EmuState :=
  if s.ticksToNextInstruction ≠ 0 then s
  else
    match s.pendingEnableInterrupts with
    | .none => s
    | .afterCurrentInstruction rep =>
      let s := { s with interruptsEnabled := true }
      if rep then { s with pendingEnableInterrupts := .afterCurrentInstruction false }
      else { s with pendingEnableInterrupts := .none }
    | .afterNextInstruction =>
      { s with pendingEnableInterrupts := .afterCurrentInstruction false }

/-- Byte copy loop of `complete_oam_dma_transfer` (src/emulator.rs):
copy `count` bytes from `src + i` into OAM index `i`, reading through
the address map against the partially updated state exactly as the
source's loop does. -/
def oamCopyFrom (src : Nat) : Nat → Nat → EmuState → Option EmuState
  | _, 0, s => some s
  | i, count + 1, s => do
    let byte ← readAddress s ((src + i) % 65536)
    oamCopyFrom src (i + 1) count { s with oam := upd s.oam i byte }

/-- Complete an OAM DMA transfer, writing all 160 bytes to OAM
(src/emulator.rs `complete_oam_dma_transfer`; the `take().unwrap()` on a
missing transfer is modelled as `none`). -/
def completeOamDmaTransfer (s : EmuState) : Option EmuState :=
  match s.currentOamDmaTransfer with
  | none => none
  | some t => oamCopyFrom t.sourceAddress 0 160 { s with currentOamDmaTransfer := none }

/-- Advance the OAM DMA transfer state each tick (src/emulator.rs
`advance_oam_dma_transfer_state`). -/
def advanceOamDmaTransferState (s : EmuState) : Option EmuState :=
  match s.currentOamDmaTransfer with
  | none => some s
  | some t =>
    if t.ticksRemaining = 0 then completeOamDmaTransfer s
    else if s.isDoubleSpeed then
      some { s with currentOamDmaTransfer := some { t with ticksRemaining := t.ticksRemaining - 2 } }
    else
      some { s with currentOamDmaTransfer := some { t with ticksRemaining := t.ticksRemaining - 1 } }

/-- Advance the general purpose VRAM DMA state each tick (src/emulator.rs
`advance_general_purpose_vram_dma_transfer_state`). -/
def advanceGeneralPurposeVramDmaTransferState (s : EmuState) : EmuState :=
  match s.currentGeneralPurposeVramDmaTransfer with
  | none => s
  | some numTicksRemaining =>
    if numTicksRemaining = 0 then
      writeRegisterRaw
        { s with
          isCpuStoppedForVramDma := false,
          currentGeneralPurposeVramDmaTransfer := none }
        0xFF55 0xFF
    else { s with currentGeneralPurposeVramDmaTransfer := some (numTicksRemaining - 1) }

/-- Advance the HBlank VRAM DMA state each tick (src/emulator.rs
`advance_hblank_vram_dma_transfer_state`). -/
def advanceHblankVramDmaTransferState (s : EmuState) : EmuState :=
  match s.currentHblankVramDmaTransfer with
  | none => s
  | some t =>
    if s.isCpuHalted then s
    else if t.remainingTicksInCurrentHblank = some 0 then
      let s := { s with
        currentHblankVramDmaTransfer := some { t with remainingTicksInCurrentHblank := none },
        isCpuStoppedForVramDma := false }
      let s := writeRegisterRaw s 0xFF55 (t.numBlocksLeft &&& 0x7F)
      if t.numBlocksLeft = 0 then
        writeRegisterRaw { s with currentHblankVramDmaTransfer := none } 0xFF55 0xFF
      else s
    else
      match t.remainingTicksInCurrentHblank with
      | some remainingTicks =>
        let t2 := { t with remainingTicksInCurrentHblank := some (remainingTicks - 1) }
        { s with currentHblankVramDmaTransfer := some t2 }
      | none => s

/-- Advance the speed switch countdown each tick (src/emulator.rs
`advance_speed_switch_state`). -/
def advanceSpeedSwitchState (s : EmuState) : EmuState :=
  match s.currentSpeedSwitch with
  | none => s
  | some 0 => resumeHaltedCpu s
  | some (ticksRemaining + 1) => { s with currentSpeedSwitch := some ticksRemaining }

/-- Tail of `run_tick` after the instruction/interrupt dispatch
(src/emulator.rs `run_tick`): `push_next_sample` only appends to the
audio-sample queue, which this model omits; then the u32 tick counter
advances, the instruction counter decrements (saturating; by 2 in double
speed mode) and the deferred state machines advance in the source's
order. -/
def finishTick (s : EmuState) : Option EmuState := do
  let s := { s with tick := (s.tick + 1) % 4294967296 }
  let s :=
    if s.isDoubleSpeed then
      { s with ticksToNextInstruction := s.ticksToNextInstruction - 2 }
    else
      { s with ticksToNextInstruction := s.ticksToNextInstruction - 1 }
  let s := advancePendingEnableInterruptsState s
  let s ← advanceOamDmaTransferState s
  let s := advanceGeneralPurposeVramDmaTransferState s
  let s := advanceHblankVramDmaTransferState s
  some (advanceSpeedSwitchState s)

/-- The labelled `'handled` block of `run_tick` (src/emulator.rs): when
the instruction counter reaches zero, either dispatch a pending
interrupt (which resumes a halted CPU, and enters the handler only when
IME is set) or execute one instruction (unless halted or stopped for
VRAM DMA). -/
def dispatchCpu (s : EmuState) : Option EmuState :=
  if s.ticksToNextInstruction = 0 then
    let bits := interruptBits s
    if bits ≠ 0 then
      let s := resumeHaltedCpu s
      if s.interruptsEnabled then
        match Interrupt.forBits bits with
        | some i => handleInterrupt i s
        | none => none
      else if !s.isCpuHalted && !s.isCpuStoppedForVramDma then executeInstruction s
      else some s
    else if !s.isCpuHalted && !s.isCpuStoppedForVramDma then executeInstruction s
    else some s
  else some s

/-- One emulator tick (src/emulator.rs `run_tick`). `handle_inputs`
returns immediately when no input adapter is attached (the modelled
configuration) and `advance_period_timers` only touches APU state, which
this model omits; then timers advance, `dispatchCpu` is the labelled
`'handled` block, and `finishTick` is the rest of the source function. -/
def runTick (s : EmuState) : Option EmuState := do
  let s := incrementTimers s
  let s ← dispatchCpu s
  finishTick s

/-- Iterate `runTick` a number of times. -/
def runTicks (s : EmuState) : Nat → Option EmuState
  | 0 => some s
  | n + 1 => do runTicks (← runTick s) n

/-- A sprite in OAM (src/ppu.rs `Object`). -/
structure OamObject where
  y : Nat
  x : Nat
  tileIndex : Nat
  attributes : Nat
deriving DecidableEq, Repr

/-- Object height from LCDC bit 2 (src/ppu.rs `object_height`). -/
def objectHeight (areObjectsDoubleSize : Bool) : Nat :=
  if areObjectsDoubleSize then 16 else 8

/-- Selection loop of the OAM scan (the `for` loop of src/ppu.rs
`oam_scan`): inspect objects `i, i+1, ...` with `fuel` iterations left,
accumulating selected objects in reverse and stopping at 10. The
`wrapping_add` computing the exclusive end y is u8 arithmetic, and the
Rust range containment is start ≤ y < end. -/
def oamScanFrom (s : EmuState) (scanline : Nat) : Nat → List OamObject → Nat → List OamObject
  | _, acc, 0 => acc.reverse
  | i, acc, fuel + 1 =>
    let start := i * 4
    let objectStartY := s.oam start
    let objectEndY := (objectStartY + objectHeight (isLcdcObjDoubleSize s)) % 256
    let scanlineY := (scanline + 16) % 256
    if objectStartY ≤ scanlineY ∧ scanlineY < objectEndY then
      let acc := (⟨objectStartY, s.oam (start + 1), s.oam (start + 2), s.oam (start + 3)⟩ :
        OamObject) :: acc
      if acc.length = 10 then acc.reverse
      else oamScanFrom s scanline (i + 1) acc fuel
    else oamScanFrom s scanline (i + 1) acc fuel

/-- Collect the first 10 objects intersecting the scanline, sorting by x
coordinate only when the OPRI register reads 1 (src/ppu.rs `oam_scan`;
`opri` reads the raw register, and Rust's `sort_by_key` is a stable sort,
as is `List.mergeSort`). -/
def oamScan (s : EmuState) (scanline : Nat) : List OamObject :=
  let objects := oamScanFrom s scanline 0 [] 40
  if readRegisterRaw s 0xFF6C = 1 then
    objects.mergeSort (fun o1 o2 => o1.x ≤ o2.x)
  else objects

/-- The DMG column of the IO register initialization table built by
`define_registers!` in src/io_registers.rs (`DMG_INIT_IO_REGISTERS`):
registers start from the listed initial bytes and every unlisted offset
is 0xFF (the table is seeded with 0xFF, and `NONE`/`VARIABLE`/
`UNITIALIZED` are also 0xFF). -/
def dmgInitIoRegisters : Nat → Nat :=
  fun off =>
    match off with
    | 0x00 => 0xCF
    | 0x04 => 0xAB
    | 0x05 => 0x00
    | 0x06 => 0x00
    | 0x07 => 0xF8
    | 0x0F => 0xE1
    | 0x10 => 0x80
    | 0x11 => 0xBF
    | 0x12 => 0xF3
    | 0x13 => 0xFF
    | 0x14 => 0xBF
    | 0x16 => 0x3F
    | 0x17 => 0x00
    | 0x18 => 0xFF
    | 0x19 => 0xBF
    | 0x24 => 0x77
    | 0x25 => 0xF3
    | 0x26 => 0xF1
    | 0x40 => 0x91
    | 0x41 => 0x85
    | 0x44 => 0x91
    | 0x45 => 0x00
    | 0x47 => 0xFC
    | _ => 0xFF

/-- A concrete CGB-mode emulator state used to instantiate theorems:
CPU at 0xC000 with empty memory, no transfers in progress, timer
disabled, single speed, LCD enabled (LCDC = 0x91), past boot. -/
def baseState : EmuState where
  pc := 0xC000
  sp := 0xFFFE
  a := 0
  b := 0
  c := 0
  d := 0
  e := 0
  h := 0
  l := 0
  zeroFlag := false
  carryFlag := false
  nFlag := false
  hFlag := false
  interruptsEnabled := false
  rom := fun _ => 0
  cartridgeRam := fun _ => 0
  vram := fun _ => 0
  workRam := fun _ => 0
  oam := fun _ => 0
  hram := fun _ => 0
  ioRegs := fun off => if off = 0x40 then 0x91 else 0
  ie := 0
  cgbBackgroundPalettes := fun _ => 0xAB
  cgbObjectPalettes := fun _ => 0xCD
  machineIsCgb := true
  inCgbMode := true
  isBooting := false
  isDoubleSpeed := false
  mode := Mode.HBlank
  scanline := 0
  tick := 0
  ticksToNextInstruction := 0
  pendingEnableInterrupts := .none
  isCpuHalted := false
  isCpuStoppedForVramDma := false
  currentOamDmaTransfer := none
  currentHblankVramDmaTransfer := none
  currentGeneralPurposeVramDmaTransfer := none
  currentSpeedSwitch := none
  fullDividerRegister := 0
  tacMask := 0x0200
  isTimerEnabled := false
  pressedButtons := 0

/-- A state in Draw mode with the LCD enabled, where the claims say VRAM
and the CGB palette registers are inaccessible. -/
def drawState : EmuState := { baseState with mode := Mode.Draw }

/-- C1: the claim says BCPD reads return 0xFF during Draw mode (LCD on)
and that outside Draw mode a write followed by a read returns the
written byte, and that VRAM reads/writes are likewise blocked during
Draw mode. The code does the opposite: `read_bcpd_impl` returns the
failure value when `can_access_vram()` is TRUE (inverted against its own
comment), so outside Draw mode a written palette byte reads back as 0xFF
while during Draw mode the stored palette byte (0xAB here) leaks out;
and `read_address`/`write_address` never block the VRAM region, so a
VRAM write during Draw mode is stored and read back (0x5A here). -/
theorem c1_vram_palette_draw_blocking_code_bug :
    canAccessVram baseState = true ∧
    canAccessVram drawState = false ∧
    ((writeIoRegister baseState 0xFF69 0x12).bind fun t => readIoRegister t 0xFF69)
      = some 0xFF ∧
    readIoRegister drawState 0xFF69 = some 0xAB ∧
    ((writeAddress drawState 0x8000 0x5A).bind fun t => readAddress t 0x8000)
      = some 0x5A := by
  refine ⟨rfl, rfl, rfl, rfl, rfl⟩

/-- Modelled from the wording of claim C3: the BCD adjustment that the
`daa` instruction is specified to store into A (u8 arithmetic is the
explicit mod). Declared for comparison with the code-translated `daa`. -/
def daaSpecResult (acc : Nat) (nF hF cF : Bool) : Nat :=
  if !nF then
    let adjustment := (if hF || decide ((acc &&& 0x0F) > 0x09) then 0x06 else 0x00) |||
      (if cF || decide (acc > 0x99) then 0x60 else 0x00)
    (acc + adjustment) % 256
  else
    let adjustment := (if hF then 0x06 else 0x00) ||| (if cF then 0x60 else 0x00)
    (acc + 256 - adjustment % 256) % 256

/-- C3: the claim says executing `daa` replaces A with its BCD
adjustment. The translated handler never modifies A (the source computes
`result` but the write-back to the accumulator is missing), so for
A = 0x0A with all flags clear A stays 0x0A although the specified
adjustment is 0x10; the zero flag is nevertheless derived from the
unstored adjusted value. -/
theorem c3_daa_code_bug :
    (∀ s : EmuState, (daa s).a = s.a) ∧
    (daa { baseState with a := 0x0A }).a = 0x0A ∧
    daaSpecResult 0x0A false false false = 0x10 ∧
    (daa { baseState with a := 0x0A }).zeroFlag = false ∧
    (0x0A : Nat) ≠ 0x10 := by
  exact ⟨fun s => rfl, rfl, rfl, by decide, by decide⟩

/-- Program for the C4 scenario: EI at 0xC000 followed by NOPs, with
IE = 0 so no interrupt is pending. -/
def eiNopState : EmuState := { baseState with
  workRam := fun i => if i = 0 then 0xFB else 0 }

/-- C4: executing `ei` (tick 1, PC advances past it; its 4 ticks end at
tick 4) does not set IME during that instruction nor during the
following NOP (executed at tick 5, completing at the end of tick 8): IME
is still false after each of the first 7 ticks and becomes true exactly
when the instruction following EI completes, at the end of tick 8.
Executing `di` clears IME immediately, for every state. -/
theorem c4_ei_delay_di_immediate :
    (runTicks eiNopState 1).map (fun s => s.interruptsEnabled) = some false ∧
    (runTicks eiNopState 2).map (fun s => s.interruptsEnabled) = some false ∧
    (runTicks eiNopState 3).map (fun s => s.interruptsEnabled) = some false ∧
    (runTicks eiNopState 4).map (fun s => s.interruptsEnabled) = some false ∧
    (runTicks eiNopState 5).map (fun s => s.interruptsEnabled) = some false ∧
    (runTicks eiNopState 6).map (fun s => s.interruptsEnabled) = some false ∧
    (runTicks eiNopState 7).map (fun s => s.interruptsEnabled) = some false ∧
    (runTicks eiNopState 8).map (fun s => s.interruptsEnabled) = some true ∧
    (runTicks eiNopState 1).map (fun s => s.pc) = some 0xC001 ∧
    (runTicks eiNopState 5).map (fun s => s.pc) = some 0xC002 ∧
    (runTicks eiNopState 8).map (fun s => s.pc) = some 0xC002 ∧
    (∀ s : EmuState, (di s).interruptsEnabled = false) := by
  refine ⟨rfl, rfl, rfl, rfl, rfl, rfl, rfl, rfl, rfl, rfl, rfl, fun s => rfl⟩

/-- Program for the C5 scenario: HALT at 0xC000 followed by NOPs, with
IE = IF∩enabled = 0 so no interrupt is or becomes pending. -/
def haltNopState : EmuState := { baseState with
  workRam := fun i => if i = 0 then 0x76 else 0 }

/-- C5: the claim says that after executing `halt` with no pending
interrupt the CPU fetches no further instructions until IE & IF & 0x1F
becomes non-zero. In the source the `halt_cpu()` call inside the halt
handler is commented out, so the handler changes nothing but the
instruction counter: the CPU is not halted after executing HALT (tick 1)
and fetches and executes the following instruction at tick 5 (PC moves
to 0xC002) although no interrupt ever becomes pending. -/
theorem c5_halt_code_bug :
    (∀ s : EmuState, (haltInstr s).isCpuHalted = s.isCpuHalted ∧
      (haltInstr s).ticksToNextInstruction = 4) ∧
    interruptBits haltNopState = 0 ∧
    (runTicks haltNopState 1).map (fun s => s.isCpuHalted) = some false ∧
    (runTicks haltNopState 1).map (fun s => s.pc) = some 0xC001 ∧
    (runTicks haltNopState 5).map (fun s => s.pc) = some 0xC002 := by
  exact ⟨fun s => ⟨rfl, rfl⟩, rfl, rfl, rfl, rfl⟩

/-- OAM for the C8 scenario: object 0 at (y 16, x 50) and object 1 at
(y 16, x 10), both intersecting scanline 0 with 8-pixel objects; all
other OAM entries have y = 0 and are not selected. -/
def dmgScanState : EmuState := { baseState with
  machineIsCgb := false
  inCgbMode := false
  ioRegs := dmgInitIoRegisters
  oam := fun i =>
    if i = 0 then 16 else if i = 1 then 50
    else if i = 4 then 16 else if i = 5 then 10 else 0 }

/-- C8: the claim says that in DMG mode the selected objects are stably
sorted by ascending x before priority resolution. The source sorts only
when the OPRI register reads 1, but on a DMG machine OPRI is initialized
to 0xFF (the `NONE` entry of the DMG init table) and `write_opri_impl`
only ever stores a value while booting, which never happens on a DMG
machine (`emulate_boot_sequence` writes OPRI only on a CGB machine). So
on a DMG machine the scan returns OAM order: here x-coordinates [50, 10]
instead of the sorted [10, 50]. -/
theorem c8_dmg_oam_sort_code_bug :
    (oamScan dmgScanState 0).map (fun o => o.x) = [50, 10] ∧
    readRegisterRaw dmgScanState 0xFF6C = 0xFF ∧
    dmgInitIoRegisters 0x6C = 0xFF ∧
    (oamScan dmgScanState 0).map (fun o => o.x) ≠ [10, 50] := by
  exact ⟨rfl, rfl, rfl, by decide⟩

/-- Reduction of the `Option` do-notation bind on a known `some`. -/
theorem bindSome {α β : Type} (a : α) (f : α → Option β) :
    ((some a : Option α) >>= f) = f a := rfl

/-- Boolean check that `Interrupt.forBits` returns the lowest-numbered
pending bit of `bits`: no bit below the chosen flag bit is set in `bits`
and the chosen flag bit itself is. -/
def forBitsLowestCheck (bits : Nat) : Bool :=
  match Interrupt.forBits bits with
  | none => false
  | some i => (bits &&& (i.flagBit - 1) == 0) && (bits &&& i.flagBit != 0)

/-- The priority cascade of `Interrupt::for_bits` picks the lowest set
bit, checked over all 5-bit masks. -/
theorem forBitsLowestCheck_true : ∀ bits < 32, bits ≠ 0 → forBitsLowestCheck bits = true := by
  decide

/-- Pushing a 16-bit value while SP points into the first work RAM bank
(with room for the two bytes) stores the little-endian bytes at SP-2 and
SP-1 and decrements SP by 2. -/
theorem pushU16ToStack_wram (s : EmuState) (value : Nat)
    (h1 : 0xC002 ≤ s.sp) (h2 : s.sp ≤ 0xCFFF) :
    pushU16ToStack s value = some { s with
      workRam := upd (upd s.workRam (s.sp - 1 - 0xC000) ((value >>> 8) &&& 0xFF))
        (s.sp - 2 - 0xC000) (value &&& 0xFF),
      sp := s.sp - 2 } := by
  have e1 : (s.sp + 65536 - 2) % 65536 = s.sp - 2 := by omega
  have hw1 : writeAddress s (s.sp - 1) ((value >>> 8) &&& 0xFF)
      = some { s with
          workRam := upd s.workRam (s.sp - 1 - 0xC000) ((value >>> 8) &&& 0xFF) } := by
    unfold writeAddress writeAddressCore
    rw [if_neg (by omega), if_neg (by omega), if_neg (by omega), if_neg (by omega),
      if_pos (by omega)]
  have hw2 : writeAddress
        { s with workRam := upd s.workRam (s.sp - 1 - 0xC000) ((value >>> 8) &&& 0xFF) }
        (s.sp - 2) (value &&& 0xFF)
      = some { s with
          workRam := upd (upd s.workRam (s.sp - 1 - 0xC000) ((value >>> 8) &&& 0xFF))
            (s.sp - 2 - 0xC000) (value &&& 0xFF) } := by
    unfold writeAddress writeAddressCore
    rw [if_neg (by omega), if_neg (by omega), if_neg (by omega), if_neg (by omega),
      if_pos (by omega)]
  unfold pushU16ToStack
  dsimp only
  rw [e1, show (s.sp - 2 + 1) % 65536 = s.sp - 1 from by omega, hw1, bindSome, hw2, bindSome]

/-- Effect of `handle_interrupt` with SP in the first work RAM bank:
schedule 20 ticks, clear the IF flag bit, clear IME, push PC and jump to
the handler address. -/
theorem handleInterrupt_eq (i : Interrupt) (s : EmuState)
    (h1 : 0xC002 ≤ s.sp) (h2 : s.sp ≤ 0xCFFF) :
    handleInterrupt i s = some { s with
      ticksToNextInstruction := 20,
      ioRegs := upd s.ioRegs 0x0F
        (0xE0 ||| (0x1F &&& (s.ioRegs 0x0F &&& (0xFF ^^^ i.flagBit)))),
      interruptsEnabled := false,
      workRam := upd (upd s.workRam (s.sp - 1 - 0xC000) ((s.pc >>> 8) &&& 0xFF))
        (s.sp - 2 - 0xC000) (s.pc &&& 0xFF),
      sp := s.sp - 2,
      pc := i.handlerAddress } := by
  have key : handleInterrupt i s
      = (pushU16ToStack { s with
          ticksToNextInstruction := 20,
          ioRegs := upd s.ioRegs 0x0F
            (0xE0 ||| (0x1F &&& (s.ioRegs 0x0F &&& (0xFF ^^^ i.flagBit)))),
          interruptsEnabled := false } s.pc) >>=
        (fun t => some ({ t with pc := i.handlerAddress })) := rfl
  rw [key, pushU16ToStack_wram { s with
      ticksToNextInstruction := 20,
      ioRegs := upd s.ioRegs 0x0F
        (0xE0 ||| (0x1F &&& (s.ioRegs 0x0F &&& (0xFF ^^^ i.flagBit)))),
      interruptsEnabled := false } s.pc h1 h2, bindSome]

/-- Reduction of `dispatchCpu` on a state that is about to enter an
interrupt handler: counter at zero, a pending interrupt and IME set. -/
theorem dispatchCpu_interrupt (s : EmuState) (i : Interrupt)
    (h0 : s.ticksToNextInstruction = 0)
    (hIme : s.interruptsEnabled = true)
    (hfb : Interrupt.forBits (interruptBits s) = some i)
    (hBits : interruptBits s ≠ 0) :
    dispatchCpu s = handleInterrupt i (resumeHaltedCpu s) := by
  unfold dispatchCpu
  dsimp only [resumeHaltedCpu]
  rw [if_pos h0, if_pos hBits, if_pos (show s.interruptsEnabled = true from hIme), hfb]

/-- Reduction of `finishTick` on a state with no DMA or speed-switch
machinery active and 20 ticks just scheduled, in single speed: the tick
counter advances and the instruction counter drops to 19. -/
theorem finishTick_simple (s : EmuState)
    (hDs : s.isDoubleSpeed = false)
    (hOam : s.currentOamDmaTransfer = none)
    (hGp : s.currentGeneralPurposeVramDmaTransfer = none)
    (hHb : s.currentHblankVramDmaTransfer = none)
    (hSs : s.currentSpeedSwitch = none)
    (hTk : s.ticksToNextInstruction = 20) :
    finishTick s = some { s with
      tick := (s.tick + 1) % 4294967296,
      ticksToNextInstruction := 19 } := by
  unfold finishTick
  dsimp only
  rw [if_neg (show ¬ (s.isDoubleSpeed = true) from by simp [hDs])]
  unfold advancePendingEnableInterruptsState
  rw [if_pos (show s.ticksToNextInstruction - 1 ≠ 0 from by rw [hTk]; norm_num)]
  unfold advanceOamDmaTransferState
  dsimp only
  rw [hOam]
  dsimp only
  rw [bindSome]
  unfold advanceGeneralPurposeVramDmaTransferState
  dsimp only
  rw [hGp]
  unfold advanceHblankVramDmaTransferState
  dsimp only
  rw [hHb]
  unfold advanceSpeedSwitchState
  dsimp only
  rw [hSs]
  rw [hTk]

/-- C2: on a tick where the instruction counter is zero, IME is true,
and IE & IF & 0x1F is non-zero (with the timer disabled so the tick's
own timer advance cannot change IF, no DMA/speed-switch machinery
active, single speed, and SP inside the first work RAM bank), the
emulator dispatches the lowest-numbered pending-and-enabled interrupt i:
it schedules 20 ticks (one of which elapses during this tick, leaving
19), clears IME, clears exactly i's IF bit (leaving IE and the other IF
bits as the masked write handler stores them), pushes PC little-endian
at SP-2/SP-1, and sets PC to i's fixed handler address. The
lowest-bit clauses state the priority order VBlank > LCDSTAT > Timer >
Serial > Joypad. -/
theorem c2_interrupt_entry (s : EmuState)
    (h0 : s.ticksToNextInstruction = 0)
    (hIme : s.interruptsEnabled = true)
    (hBits : interruptBits s ≠ 0)
    (hTimer : s.isTimerEnabled = false)
    (hDs : s.isDoubleSpeed = false)
    (hOam : s.currentOamDmaTransfer = none)
    (hGp : s.currentGeneralPurposeVramDmaTransfer = none)
    (hHb : s.currentHblankVramDmaTransfer = none)
    (hSp1 : 0xC002 ≤ s.sp) (hSp2 : s.sp ≤ 0xCFFF) :
    ∃ i s', Interrupt.forBits (interruptBits s) = some i ∧
      runTick s = some s' ∧
      interruptBits s &&& (i.flagBit - 1) = 0 ∧
      interruptBits s &&& i.flagBit ≠ 0 ∧
      s'.ticksToNextInstruction = 19 ∧
      s'.interruptsEnabled = false ∧
      s'.ioRegs 0x0F = 0xE0 ||| (0x1F &&& (s.ioRegs 0x0F &&& (0xFF ^^^ i.flagBit))) ∧
      s'.ie = s.ie ∧
      s'.pc = i.handlerAddress ∧
      s'.sp = s.sp - 2 ∧
      readAddress s' (s.sp - 2) = some (s.pc &&& 0xFF) ∧
      readAddress s' (s.sp - 1) = some ((s.pc >>> 8) &&& 0xFF) := by
  have hb32 : interruptBits s < 32 :=
    lt_of_le_of_lt Nat.and_le_right (by norm_num)
  have hchk := forBitsLowestCheck_true (interruptBits s) hb32 hBits
  obtain ⟨i, hfb⟩ : ∃ i, Interrupt.forBits (interruptBits s) = some i := by
    cases h : Interrupt.forBits (interruptBits s) with
    | none =>
      unfold forBitsLowestCheck at hchk
      rw [h] at hchk
      simp at hchk
    | some i => exact ⟨i, rfl⟩
  obtain ⟨hlow, hflag⟩ : interruptBits s &&& (i.flagBit - 1) = 0 ∧
      interruptBits s &&& i.flagBit ≠ 0 := by
    unfold forBitsLowestCheck at hchk
    rw [hfb] at hchk
    simpa using hchk
  have hA : incrementTimers s
      = { s with fullDividerRegister := (s.fullDividerRegister + 1) % 65536 } := by
    unfold incrementTimers
    simp [hDs, hTimer]
  have hkey : runTick s = dispatchCpu (incrementTimers s) >>= finishTick := rfl
  rw [hA] at hkey
  have hrun : runTick s = some { s with
      fullDividerRegister := (s.fullDividerRegister + 1) % 65536,
      isCpuHalted := false,
      currentSpeedSwitch := none,
      ticksToNextInstruction := 19,
      ioRegs := upd s.ioRegs 0x0F
        (0xE0 ||| (0x1F &&& (s.ioRegs 0x0F &&& (0xFF ^^^ i.flagBit)))),
      interruptsEnabled := false,
      workRam := upd (upd s.workRam (s.sp - 1 - 0xC000) ((s.pc >>> 8) &&& 0xFF))
        (s.sp - 2 - 0xC000) (s.pc &&& 0xFF),
      sp := s.sp - 2,
      pc := i.handlerAddress,
      tick := (s.tick + 1) % 4294967296 } := by
    rw [hkey, dispatchCpu_interrupt _ i, handleInterrupt_eq i, bindSome]
    rw [finishTick_simple]
    all_goals first
      | rfl
      | exact h0
      | exact hIme
      | exact hfb
      | exact hBits
      | exact hSp1
      | exact hSp2
      | exact hDs
      | exact hOam
      | exact hGp
      | exact hHb
  refine ⟨i, _, hfb, hrun, hlow, hflag, rfl, rfl, rfl, rfl, rfl, rfl, ?_, ?_⟩
  · unfold readAddress
    rw [if_neg (by omega), if_neg (by omega), if_neg (by omega), if_pos (by omega)]
    simp [upd]
  · unfold readAddress
    rw [if_neg (by omega), if_neg (by omega), if_neg (by omega), if_pos (by omega)]
    simp [upd, show s.sp - 1 - 0xC000 ≠ s.sp - 2 - 0xC000 from by omega]

/-- Concrete state for the C2 witness: IE = 0x06 and IF raw = 0xE6 so
LCDSTAT and Timer are pending (LCDSTAT is the lowest), IME set, counter
at zero, SP = 0xC800, PC = 0x1234. -/
def interruptEntryState : EmuState := { baseState with
  sp := 0xC800
  pc := 0x1234
  interruptsEnabled := true
  ie := 0x06
  ioRegs := fun off => if off = 0x40 then 0x91 else if off = 0x0F then 0xE6 else 0 }

/-- Witness for `c2_interrupt_entry` at `interruptEntryState`. -/
theorem c2_interrupt_entry_witness :
    interruptEntryState.ticksToNextInstruction = 0 ∧
    interruptEntryState.interruptsEnabled = true ∧
    interruptBits interruptEntryState ≠ 0 ∧
    interruptEntryState.isTimerEnabled = false ∧
    interruptEntryState.isDoubleSpeed = false ∧
    interruptEntryState.currentOamDmaTransfer = none ∧
    interruptEntryState.currentGeneralPurposeVramDmaTransfer = none ∧
    interruptEntryState.currentHblankVramDmaTransfer = none ∧
    0xC002 ≤ interruptEntryState.sp ∧ interruptEntryState.sp ≤ 0xCFFF ∧
    (∃ i s', Interrupt.forBits (interruptBits interruptEntryState) = some i ∧
      runTick interruptEntryState = some s' ∧
      interruptBits interruptEntryState &&& (i.flagBit - 1) = 0 ∧
      interruptBits interruptEntryState &&& i.flagBit ≠ 0 ∧
      s'.ticksToNextInstruction = 19 ∧
      s'.interruptsEnabled = false ∧
      s'.ioRegs 0x0F = 0xE0 ||| (0x1F &&&
        (interruptEntryState.ioRegs 0x0F &&& (0xFF ^^^ i.flagBit))) ∧
      s'.ie = interruptEntryState.ie ∧
      s'.pc = i.handlerAddress ∧
      s'.sp = interruptEntryState.sp - 2 ∧
      readAddress s' (interruptEntryState.sp - 2)
        = some (interruptEntryState.pc &&& 0xFF) ∧
      readAddress s' (interruptEntryState.sp - 1)
        = some ((interruptEntryState.pc >>> 8) &&& 0xFF)) :=
  ⟨rfl, rfl, by decide, rfl, rfl, rfl, rfl, rfl, by decide, by decide,
    c2_interrupt_entry interruptEntryState rfl rfl (by decide) rfl rfl rfl rfl rfl
      (by decide) (by decide)⟩

/-- C6 counterexample: the claim's round-trip formula
`(default_bits & ¬mask) | (v & mask)` fails for WBK at v = 0, where the
code stores `0xF8 | max(v & 7, 1) = 0xF9` while the formula gives 0xF8,
and for KEY1 in double-speed mode, where the read handler ORs in the
live speed bit 0x80 while the formula gives `v & 1 = 0`. -/
theorem c6_wbk_key1_counterexample :
    ((writeIoRegister baseState 0xFF70 0).bind fun t => readIoRegister t 0xFF70)
      = some 0xF9 ∧
    (0xF8 ||| ((0 : Nat) &&& 0x07)) = 0xF8 ∧
    (0xF9 : Nat) ≠ 0xF8 ∧
    ((writeIoRegister { baseState with isDoubleSpeed := true } 0xFF4D 0).bind
      fun t => readIoRegister t 0xFF4D) = some 0x80 ∧
    ((0 : Nat) &&& 0x01) = 0 ∧
    (0x80 : Nat) ≠ 0 := by
  exact ⟨rfl, rfl, by decide, rfl, rfl, by decide⟩

/-- C6 amended: for every byte v, writing a masked IO register and
immediately reading it back returns `(default_bits & ¬mask) | (v & mask)`
for IF (mask 0x1F, default bits 0xE0), VBK (mask 0x01, default bits
0xFE) and, while not in double-speed mode, KEY1 (mask 0x01, default bits
0x00); for WBK (mask 0x07, default bits 0xF8) the masked value is first
clamped to a minimum of 1, so the read-back is
`0xF8 | max(v & 7, 1)` instead. -/
theorem c6_masked_register_roundtrip (s : EmuState) (v : Nat)
    (hds : s.isDoubleSpeed = false) :
    ((writeIoRegister s 0xFF0F v).bind fun t => readIoRegister t 0xFF0F)
      = some (0xE0 ||| (v &&& 0x1F)) ∧
    ((writeIoRegister s 0xFF4F v).bind fun t => readIoRegister t 0xFF4F)
      = some (0xFE ||| (v &&& 0x01)) ∧
    ((writeIoRegister s 0xFF4D v).bind fun t => readIoRegister t 0xFF4D)
      = some (v &&& 0x01) ∧
    ((writeIoRegister s 0xFF70 v).bind fun t => readIoRegister t 0xFF70)
      = some (0xF8 ||| max (v &&& 0x07) 1) := by
  refine ⟨?_, ?_, ?_, ?_⟩
  · rw [Nat.and_comm v 0x1F]; rfl
  · rw [Nat.and_comm v 0x01]; rfl
  · show some (readKey1Impl (writeKey1Impl s v)) = some (v &&& 0x01)
    have h : (writeKey1Impl s v).isDoubleSpeed = false := hds
    simp only [readKey1Impl, h, Bool.false_eq_true, if_false]
    rfl
  · rw [Nat.and_comm v 0x07]; rfl

/-- Witness for `c6_masked_register_roundtrip` at the base state and
v = 0xAB. -/
theorem c6_masked_register_roundtrip_witness :
    baseState.isDoubleSpeed = false ∧
    (((writeIoRegister baseState 0xFF0F 0xAB).bind fun t => readIoRegister t 0xFF0F)
      = some (0xE0 ||| (0xAB &&& 0x1F)) ∧
    ((writeIoRegister baseState 0xFF4F 0xAB).bind fun t => readIoRegister t 0xFF4F)
      = some (0xFE ||| (0xAB &&& 0x01)) ∧
    ((writeIoRegister baseState 0xFF4D 0xAB).bind fun t => readIoRegister t 0xFF4D)
      = some (0xAB &&& 0x01) ∧
    ((writeIoRegister baseState 0xFF70 0xAB).bind fun t => readIoRegister t 0xFF70)
      = some (0xF8 ||| max (0xAB &&& 0x07) 1)) :=
  ⟨rfl, c6_masked_register_roundtrip baseState 0xAB rfl⟩

/-- An HBlank VRAM DMA transfer with 5 blocks left out of 8, between
blocks. -/
def hdma5ActiveTransfer : VramDmaTransfer where
  source := 0xD000
  dest := 0x8000
  remainingTicksInCurrentHblank := none
  numBlocksLeft := 5
  totalNumBlocks := 8

/-- State with `hdma5ActiveTransfer` active and HDMA5 holding the block
count 5 that `advance_hblank_vram_dma_transfer_state` last stored. -/
def hdma5ActiveState : EmuState := { baseState with
  currentHblankVramDmaTransfer := some hdma5ActiveTransfer
  ioRegs := fun off => if off = 0x40 then 0x91 else if off = 0x55 then 5 else 0 }

/-- C7 counterexample: with an active HBlank transfer with r = 5 blocks
remaining, writing 0x00 to HDMA5 terminates the transfer but leaves
HDMA5 = 0x80 (the just-written byte with the top bit set), not
r | 0x80 = 0x85 as the claim states. Moreover immediately after starting
a transfer of 5 blocks by writing 0x84, HDMA5's low 7 bits read 4 while
5 blocks remain, so the low bits do not expose the remaining count at
that point either. -/
theorem c7_hdma5_counterexample :
    (writeIoRegister hdma5ActiveState 0xFF55 0).map (fun t => t.ioRegs 0x55)
      = some 0x80 ∧
    (writeIoRegister hdma5ActiveState 0xFF55 0).map
      (fun t => t.currentHblankVramDmaTransfer.isSome) = some false ∧
    ((5 : Nat) ||| 0x80) = 0x85 ∧
    (0x80 : Nat) ≠ 0x85 ∧
    (writeIoRegister baseState 0xFF55 0x84).map
      (fun t => (t.ioRegs 0x55 &&& 0x7F,
        t.currentHblankVramDmaTransfer.map (fun tr => tr.numBlocksLeft)))
      = some (4, some 5) ∧
    (4 : Nat) ≠ 5 := by
  exact ⟨rfl, rfl, rfl, by decide, rfl, by decide⟩

/-- C7 amended: writing a byte v with bit 7 clear to HDMA5 while an
HBlank VRAM DMA transfer is active terminates the transfer and leaves
HDMA5 = (v & 0x7F) | 0x80 (the written byte with the top bit set); and
whenever a 16-byte block completes (the per-tick advance sees 0
remaining ticks in the current HBlank with r ≠ 0 blocks left), HDMA5 is
set to r & 0x7F, exposing the remaining block count until the next
write. -/
theorem c7_hdma5_termination :
    (∀ (s : EmuState) (t : VramDmaTransfer) (v : Nat),
      s.currentHblankVramDmaTransfer = some t → v.testBit 7 = false →
      ∃ s', writeIoRegister s 0xFF55 v = some s' ∧
        s'.currentHblankVramDmaTransfer = none ∧
        s'.ioRegs 0x55 = v ||| 0x80) ∧
    (∀ (s : EmuState) (t : VramDmaTransfer),
      s.currentHblankVramDmaTransfer = some t →
      t.remainingTicksInCurrentHblank = some 0 →
      s.isCpuHalted = false →
      t.numBlocksLeft ≠ 0 →
      (advanceHblankVramDmaTransferState s).ioRegs 0x55 = t.numBlocksLeft &&& 0x7F ∧
      (advanceHblankVramDmaTransferState s).currentHblankVramDmaTransfer
        = some ({ t with remainingTicksInCurrentHblank := none })) := by
  constructor
  · intro s t v hT hv
    refine ⟨terminateHblankVramDmaTransfer (writeRegisterRaw s 0xFF55 v), ?_, rfl, rfl⟩
    show writeHdma5Impl s v = _
    have hT2 : (writeRegisterRaw s 0xFF55 v).currentHblankVramDmaTransfer = some t := hT
    simp [writeHdma5Impl, hv, hT2]
  · intro s t hT hRem hHalt hBlocks
    unfold advanceHblankVramDmaTransferState
    rw [hT]
    simp only [hHalt, Bool.false_eq_true, if_false, hRem, if_pos rfl]
    rw [if_neg hBlocks]
    exact ⟨rfl, rfl⟩

/-- Transfer between blocks at an HBlank block boundary (0 ticks left in
the current block) with 5 blocks still to go. -/
def hdma5BoundaryState : EmuState := { hdma5ActiveState with
  currentHblankVramDmaTransfer :=
    some ({ hdma5ActiveTransfer with remainingTicksInCurrentHblank := some 0 }) }

/-- Witness for `c7_hdma5_termination`: the termination clause at
`hdma5ActiveState` with v = 0x13, and the block-boundary clause at
`hdma5BoundaryState`. -/
theorem c7_hdma5_termination_witness :
    hdma5ActiveState.currentHblankVramDmaTransfer = some hdma5ActiveTransfer ∧
    Nat.testBit 0x13 7 = false ∧
    (∃ s', writeIoRegister hdma5ActiveState 0xFF55 0x13 = some s' ∧
      s'.currentHblankVramDmaTransfer = none ∧
      s'.ioRegs 0x55 = 0x13 ||| 0x80) ∧
    ((advanceHblankVramDmaTransferState hdma5BoundaryState).ioRegs 0x55
        = hdma5ActiveTransfer.numBlocksLeft &&& 0x7F ∧
      (advanceHblankVramDmaTransferState hdma5BoundaryState).currentHblankVramDmaTransfer
        = some ({ hdma5ActiveTransfer with remainingTicksInCurrentHblank := none })) :=
  ⟨rfl, by decide,
    c7_hdma5_termination.1 hdma5ActiveState hdma5ActiveTransfer 0x13 rfl (by decide),
    c7_hdma5_termination.2 hdma5BoundaryState
      ({ hdma5ActiveTransfer with remainingTicksInCurrentHblank := some 0 })
      rfl rfl rfl (by decide)⟩

/-- C10: whenever bit 7 (auto-increment) of BCPS/OCPS is set, a write to
BCPD/OCPD stores `(bcps & 0x80) | ((bcps & 0x3F) + 1)` back into
BCPS/OCPS — the increment happens even when the palette write itself is
blocked (Draw mode with the LCD enabled), in which case the palette
array is left unchanged; and incrementing from index 0x3F stores 0x40
into BCPS's index field instead of wrapping to 0. -/
theorem c10_palette_auto_increment :
    (∀ (s : EmuState) (v : Nat),
      cgbPalleteAutoIncrement (readRegisterRaw s 0xFF68) = true →
      (writeIoRegister s 0xFF69 v).map (fun t => t.ioRegs 0x68)
        = some ((readRegisterRaw s 0xFF68 &&& 0x80) |||
            (cgbPalletteAddress (readRegisterRaw s 0xFF68) + 1)) ∧
      (s.mode = Mode.Draw → isLcdcLcdEnabled s = true →
        (writeIoRegister s 0xFF69 v).map (fun t => t.cgbBackgroundPalettes)
          = some s.cgbBackgroundPalettes)) ∧
    (∀ (s : EmuState) (v : Nat),
      cgbPalleteAutoIncrement (readRegisterRaw s 0xFF6A) = true →
      (writeIoRegister s 0xFF6B v).map (fun t => t.ioRegs 0x6A)
        = some ((readRegisterRaw s 0xFF6A &&& 0x80) |||
            (cgbPalletteAddress (readRegisterRaw s 0xFF6A) + 1)) ∧
      (s.mode = Mode.Draw → isLcdcLcdEnabled s = true →
        (writeIoRegister s 0xFF6B v).map (fun t => t.cgbObjectPalettes)
          = some s.cgbObjectPalettes)) ∧
    (∀ (s : EmuState) (v : Nat),
      readRegisterRaw s 0xFF68 = 0xBF →
      (writeIoRegister s 0xFF69 v).map (fun t => t.ioRegs 0x68) = some 0xC0) := by
  have hand68 : (0xFF68 &&& 0xFF : Nat) = 0x68 := by decide
  have hand6A : (0xFF6A &&& 0xFF : Nat) = 0x6A := by decide
  have hcav : ∀ s : EmuState, s.mode = Mode.Draw → isLcdcLcdEnabled s = true →
      canAccessVram s = false := by
    intro s hm hl
    simp [canAccessVram, hm, hl]
  refine ⟨?_, ?_, ?_⟩
  · intro s v hauto
    have hauto3 : cgbPalleteAutoIncrement (s.ioRegs 0x68) = true := hauto
    constructor
    · show (some (writeBcpdImpl s v)).map (fun t => t.ioRegs 0x68) = _
      unfold writeBcpdImpl
      cases hca : canAccessVram s <;>
        simp [hca, hand68, hauto3, writeRegisterRaw, readRegisterRaw, upd]
    · intro hm hl
      show (some (writeBcpdImpl s v)).map (fun t => t.cgbBackgroundPalettes) = _
      unfold writeBcpdImpl
      simp [hcav s hm hl, hand68, hauto, hauto3, writeRegisterRaw]
  · intro s v hauto
    have hauto3 : cgbPalleteAutoIncrement (s.ioRegs 0x6A) = true := hauto
    constructor
    · show (some (writeOcpdImpl s v)).map (fun t => t.ioRegs 0x6A) = _
      unfold writeOcpdImpl
      cases hca : canAccessVram s <;>
        simp [hca, hand6A, hauto3, writeRegisterRaw, readRegisterRaw, upd]
    · intro hm hl
      show (some (writeOcpdImpl s v)).map (fun t => t.cgbObjectPalettes) = _
      unfold writeOcpdImpl
      simp [hcav s hm hl, hand6A, hauto, hauto3, writeRegisterRaw]
  · intro s v hb
    have hb3 : s.ioRegs 0x68 = 0xBF := hb
    have htb : cgbPalleteAutoIncrement (0xBF : Nat) = true := by decide
    show (some (writeBcpdImpl s v)).map (fun t => t.ioRegs 0x68) = _
    unfold writeBcpdImpl
    cases hca : canAccessVram s <;>
      simp [hca, hand68, hb3, htb, writeRegisterRaw, readRegisterRaw, upd] <;>
      decide

/-- State for the C10 witness: Draw mode, LCD on, BCPS = 0xBF
(auto-increment with index 0x3F) and OCPS = 0x80. -/
def paletteWriteState : EmuState := { drawState with
  ioRegs := fun off =>
    if off = 0x40 then 0x91 else if off = 0x68 then 0xBF
    else if off = 0x6A then 0x80 else 0 }

/-- Witness for `c10_palette_auto_increment` at `paletteWriteState` with
v = 0x77: the blocked BCPD/OCPD writes still increment BCPS/OCPS, and
BCPS goes from 0xBF to 0xC0. -/
theorem c10_palette_auto_increment_witness :
    cgbPalleteAutoIncrement (readRegisterRaw paletteWriteState 0xFF68) = true ∧
    cgbPalleteAutoIncrement (readRegisterRaw paletteWriteState 0xFF6A) = true ∧
    readRegisterRaw paletteWriteState 0xFF68 = 0xBF ∧
    paletteWriteState.mode = Mode.Draw ∧
    isLcdcLcdEnabled paletteWriteState = true ∧
    ((writeIoRegister paletteWriteState 0xFF69 0x77).map (fun t => t.ioRegs 0x68)
        = some ((readRegisterRaw paletteWriteState 0xFF68 &&& 0x80) |||
            (cgbPalletteAddress (readRegisterRaw paletteWriteState 0xFF68) + 1)) ∧
      (paletteWriteState.mode = Mode.Draw → isLcdcLcdEnabled paletteWriteState = true →
        (writeIoRegister paletteWriteState 0xFF69 0x77).map
            (fun t => t.cgbBackgroundPalettes)
          = some paletteWriteState.cgbBackgroundPalettes)) ∧
    ((writeIoRegister paletteWriteState 0xFF6B 0x77).map (fun t => t.ioRegs 0x6A)
        = some ((readRegisterRaw paletteWriteState 0xFF6A &&& 0x80) |||
            (cgbPalletteAddress (readRegisterRaw paletteWriteState 0xFF6A) + 1)) ∧
      (paletteWriteState.mode = Mode.Draw → isLcdcLcdEnabled paletteWriteState = true →
        (writeIoRegister paletteWriteState 0xFF6B 0x77).map
            (fun t => t.cgbObjectPalettes)
          = some paletteWriteState.cgbObjectPalettes)) ∧
    (writeIoRegister paletteWriteState 0xFF69 0x77).map (fun t => t.ioRegs 0x68)
      = some 0xC0 :=
  ⟨by decide, by decide, rfl, rfl, by decide,
    c10_palette_auto_increment.1 paletteWriteState 0x77 (by decide),
    c10_palette_auto_increment.2.1 paletteWriteState 0x77 (by decide),
    c10_palette_auto_increment.2.2 paletteWriteState 0x77 rfl⟩

end Gbcemu
